import Mathlib

/-!
Verification of `twrpdtgen/info_extractors/buildprop.py`.

The Python module reads a `build.prop` text file and extracts device
information with `re.search` over the whole file content.  We embed the
file content as a `List Char` and the handful of regular expressions used
by the module as explicit alternation lists of key patterns, together
with a backtracking matcher that reproduces Python's semantics for the
patterns actually occurring in the module:

* every pattern is of the form `(?:key1|key2|...)(.*)$` compiled with
  `re.MULTILINE`;
* inside a key, `.` is an unescaped metacharacter matching any single
  character except a newline; every other character is a literal;
* `(.*)$` greedily captures the rest of the line (up to the next newline
  or the end of the content);
* `re.search` returns the match at the leftmost position, trying the
  alternatives left to right at each position.
-/

/-- Matches a key pattern against the beginning of a text.  A pattern
character `.` matches any character except a newline (Python regex dot);
every other pattern character matches itself.  Returns the remaining text
after the key on success. -/
def matchPat : List Char → List Char → Option (List Char)
  | [], text => some text
  | _ :: _, [] => none
  | p :: ps, c :: cs =>
    if (p == '.' && c != '\n') || p == c then matchPat ps cs else none

/-- Tries a list of alternative key patterns left to right at the current
position, as a Python regex alternation does. -/
def matchAlts : List (List Char) → List Char → Option (List Char)
  | [], _ => none
  | k :: ks, text =>
    match matchPat k text with
    | some r => some r
    | none => matchAlts ks text

/-- Capture of `(.*)$` under `re.MULTILINE`: everything up to the next
newline or the end of the content. -/
def captureToEol (text : List Char) : List Char :=
  text.takeWhile (fun c => c != '\n')

/-- Embedding of `regex.search(content)` followed by `match.group(1)` for a
pattern `(?:key1|key2|...)(.*)$`: scan positions left to right, at each
position try the alternatives left to right, and on the first success
capture the rest of the line. -/
def searchCapture (keys : List (List Char)) : List Char → Option (List Char)
  | [] => (matchAlts keys []).map captureToEol
  | c :: rest =>
    match matchAlts keys (c :: rest) with
    | some r => some (captureToEol r)
    | none => searchCapture keys rest

/-- Key alternatives of `DEVICE_CODENAME_RE`. -/
def DEVICE_CODENAME_RE : List (List Char) :=
  ["ro.product.device=".toList, "ro.system.device=".toList,
   "ro.vendor.device=".toList, "ro.product.system.device=".toList]

/-- Key alternatives of `DEVICE_MANUFACTURER_RE`. -/
def DEVICE_MANUFACTURER_RE : List (List Char) :=
  ["ro.product.manufacturer=".toList, "ro.product.system.manufacturer=".toList,
   "ro.product.vendor.manufacturer=".toList]

/-- Key alternatives of `DEVICE_PLATFORM_RE`. -/
def DEVICE_PLATFORM_RE : List (List Char) :=
  ["ro.board.platform=".toList, "ro.hardware.keystore=".toList]

/-- Key alternatives of `DEVICE_BRAND_RE`. -/
def DEVICE_BRAND_RE : List (List Char) :=
  ["ro.product.brand=".toList, "ro.product.system.brand=".toList,
   "ro.product.vendor.brand=".toList]

/-- Key alternatives of `DEVICE_MODEL_RE`. -/
def DEVICE_MODEL_RE : List (List Char) :=
  ["ro.product.model=".toList, "ro.product.system.model=".toList,
   "ro.product.vendor.model=".toList]

/-- Key alternatives of `DEVICE_ARCH_RE`. -/
def DEVICE_ARCH_RE : List (List Char) :=
  ["ro.product.cpu.abi=".toList, "ro.product.cpu.abilist=".toList]

/-- The single key pattern of `DEVICE_IS_AB_RE`. -/
def DEVICE_IS_AB_RE : List (List Char) :=
  ["ro.build.ab_update=true".toList]

/-- The six required key-pattern alternation lists, in the order the
constructor evaluates them. -/
def allFieldKeys : List (List (List Char)) :=
  [DEVICE_CODENAME_RE, DEVICE_MANUFACTURER_RE, DEVICE_PLATFORM_RE,
   DEVICE_BRAND_RE, DEVICE_MODEL_RE, DEVICE_ARCH_RE]

/-- Embedding of Python's `str.startswith` (a literal prefix test). -/
def startswith : List Char → List Char → Bool
  | _, [] => true
  | [], _ :: _ => false
  | c :: cs, p :: ps => c == p && startswith cs ps

/-- Embedding of `BuildPropReader.parse_arch`, the sequence of
`str.startswith` checks of the source. -/
def parse_arch (arch : List Char) : String :=
  if startswith arch "arm64".toList then "arm64"
  else if startswith arch "armeabi".toList then "arm"
  else if startswith arch "x86".toList then "x86"
  else if startswith arch "x86_64".toList then "x86_64"
  else if startswith arch "mips".toList then "mips"
  else "unknown"

/-- The record of fields a successfully constructed `BuildPropReader`
carries. -/
structure BuildPropReader where
  codename : List Char
  manufacturer : List Char
  platform : List Char
  brand : List Char
  model : List Char
  arch : String
  device_is_ab : Bool
  device_has_64bit_arch : Bool
  deriving DecidableEq, Repr

/-- Embedding of `BuildPropReader.get_prop`: return the first capture of
the pattern, or the `AssertionError` message raised by `_error`. -/
def get_prop (keys : List (List Char)) (error : String) (content : List Char) :
    Except String (List Char) :=
  match searchCapture keys content with
  | some v => Except.ok v
  | none => Except.error ("Device " ++ error ++ " could not be found in build.prop")

/-- Embedding of `BuildPropReader.__init__` on the file content: the
sequence of `get_prop` calls of the source, in source order, each raising
(propagated here as `Except.error`) on a failed search. -/
def buildPropReaderInit (content : List Char) : Except String BuildPropReader :=
  match get_prop DEVICE_CODENAME_RE "codename" content with
  | Except.error e => Except.error e
  | Except.ok codename =>
    match get_prop DEVICE_MANUFACTURER_RE "manufacturer" content with
    | Except.error e => Except.error e
    | Except.ok manufacturer =>
      match get_prop DEVICE_PLATFORM_RE "platform" content with
      | Except.error e => Except.error e
      | Except.ok platform =>
        match get_prop DEVICE_BRAND_RE "brand" content with
        | Except.error e => Except.error e
        | Except.ok brand =>
          match get_prop DEVICE_MODEL_RE "model" content with
          | Except.error e => Except.error e
          | Except.ok model =>
            match get_prop DEVICE_ARCH_RE "arch" content with
            | Except.error e => Except.error e
            | Except.ok archRaw =>
              let arch := parse_arch archRaw
              Except.ok
                { codename := codename
                  manufacturer := manufacturer.map Char.toLower
                  platform := platform
                  brand := brand
                  model := model
                  arch := arch
                  device_is_ab := (searchCapture DEVICE_IS_AB_RE content).isSome
                  device_has_64bit_arch := arch == "arm64" || arch == "x86_64" }

/-- A valid `build.prop` content whose abi value is `mips`. -/
def sampleMips : List Char :=
  ("ro.product.device=a\nro.product.manufacturer=B\nro.board.platform=c\n" ++
   "ro.product.brand=d\nro.product.model=e\nro.product.cpu.abi=mips\n").toList

/-- The record constructed from `sampleMips`. -/
def sampleMipsRecord : BuildPropReader :=
  { codename := "a".toList
    manufacturer := "b".toList
    platform := "c".toList
    brand := "d".toList
    model := "e".toList
    arch := "mips"
    device_is_ab := false
    device_has_64bit_arch := false }

/-- A valid `build.prop` content whose abi value is `arm64-v8a`. -/
def sampleArm64 : List Char :=
  ("ro.product.device=a\nro.product.manufacturer=B\nro.board.platform=c\n" ++
   "ro.product.brand=d\nro.product.model=e\nro.product.cpu.abi=arm64-v8a\n").toList

/-- The record constructed from `sampleArm64`. -/
def sampleArm64Record : BuildPropReader :=
  { codename := "a".toList
    manufacturer := "b".toList
    platform := "c".toList
    brand := "d".toList
    model := "e".toList
    arch := "arm64"
    device_is_ab := false
    device_has_64bit_arch := true }

/-- Names of the six required properties, in the order the constructor
extracts them. -/
inductive PropName where
  | codename
  | manufacturer
  | platform
  | brand
  | model
  | arch
  deriving DecidableEq, Repr

/-- The key-pattern alternation list of each required property. -/
def requiredKeys : PropName → List (List Char)
  | PropName.codename => DEVICE_CODENAME_RE
  | PropName.manufacturer => DEVICE_MANUFACTURER_RE
  | PropName.platform => DEVICE_PLATFORM_RE
  | PropName.brand => DEVICE_BRAND_RE
  | PropName.model => DEVICE_MODEL_RE
  | PropName.arch => DEVICE_ARCH_RE

/-- The name of each property as it appears in the error message of
`_error`. -/
def propTitle : PropName → String
  | PropName.codename => "codename"
  | PropName.manufacturer => "manufacturer"
  | PropName.platform => "platform"
  | PropName.brand => "brand"
  | PropName.model => "model"
  | PropName.arch => "arch"

/-- A `build.prop` content in which only the model property is missing. -/
def sampleNoModel : List Char :=
  ("ro.product.device=a\nro.product.manufacturer=B\nro.board.platform=c\n" ++
   "ro.product.brand=d\nro.product.cpu.abi=arm64-v8a\n").toList

/-- Property of a key list: every pattern in it ends in a literal `=`. -/
def keysEndEq (keys : List (List Char)) : Prop :=
  ∀ k ∈ keys, ∃ k0, k = k0 ++ ['=']

/-- Splits a content into its lines (separator `\n`, not kept). -/
def linesOf : List Char → List (List Char)
  | [] => [[]]
  | c :: rest =>
    if c = '\n' then [] :: linesOf rest
    else
      match linesOf rest with
      | [] => [[c]]
      | l :: ls => (c :: l) :: ls

/-- Whether some line of the content literally starts with one of the
keys. -/
def keyAtLineStart (keys : List (List Char)) (content : List Char) : Bool :=
  (linesOf content).any (fun l => keys.any (fun k => startswith l k))

/-- A content whose only codename key occurrence sits mid-line, prefixed
by a stray character. -/
def sampleMidline : List Char :=
  ("Zro.product.device=evil\nro.product.manufacturer=B\nro.board.platform=c\n" ++
   "ro.product.brand=d\nro.product.model=e\nro.product.cpu.abi=arm64-v8a\n").toList

/-- The record constructed from `sampleMidline`. -/
def sampleMidlineRecord : BuildPropReader :=
  { codename := "evil".toList
    manufacturer := "b".toList
    platform := "c".toList
    brand := "d".toList
    model := "e".toList
    arch := "arm64"
    device_is_ab := false
    device_has_64bit_arch := true }

/-- A content with two recognized codename keys on different lines. -/
def sampleDup : List Char :=
  ("ro.system.device=one\nro.product.device=two\n").toList

/-- The literal A/B-update marker string of the source. -/
def AB_MARKER : List Char := "ro.build.ab_update=true".toList

/-- Literal substring test (Python `sub in text`). -/
def containsSub (sub : List Char) : List Char → Bool
  | [] => startswith [] sub
  | c :: rest => startswith (c :: rest) sub || containsSub sub rest

/-- A content matching the A/B pattern through the wildcard dots only:
the literal marker does not occur. -/
def sampleAbWild : List Char :=
  ("ro!build!ab_update=true\nro.product.device=a\nro.product.manufacturer=B\n" ++
   "ro.board.platform=c\nro.product.brand=d\nro.product.model=e\n" ++
   "ro.product.cpu.abi=arm64-v8a\n").toList

/-- The record constructed from `sampleAbWild`. -/
def sampleAbWildRecord : BuildPropReader :=
  { codename := "a".toList
    manufacturer := "b".toList
    platform := "c".toList
    brand := "d".toList
    model := "e".toList
    arch := "arm64"
    device_is_ab := true
    device_has_64bit_arch := true }

/-- A content containing the literal A/B-update marker. -/
def sampleAb : List Char :=
  ("ro.product.device=a\nro.product.manufacturer=B\nro.board.platform=c\n" ++
   "ro.product.brand=d\nro.product.model=e\nro.product.cpu.abi=arm64-v8a\n" ++
   "ro.build.ab_update=true\n").toList

/-- The record constructed from `sampleAb`. -/
def sampleAbRecord : BuildPropReader :=
  { codename := "a".toList
    manufacturer := "b".toList
    platform := "c".toList
    brand := "d".toList
    model := "e".toList
    arch := "arm64"
    device_is_ab := true
    device_has_64bit_arch := true }

/-- The content contains a line that is a recognized key (which ends in
`=`) followed by a newline-free value. -/
def HasPropLine (keys : List (List Char)) (content : List Char) : Prop :=
  ∃ pre k v post, k ∈ keys ∧ content = pre ++ (k ++ (v ++ post)) ∧
    (pre = [] ∨ ∃ pre2, pre = pre2 ++ ['\n']) ∧
    (∀ c ∈ v, c ≠ '\n') ∧
    (post = [] ∨ ∃ t, post = '\n' :: t)

/-- `v` occurs in the content directly after an `=` and runs to the end
of its line. -/
def LineCapture (content v : List Char) : Prop :=
  (∀ c ∈ v, c ≠ '\n') ∧
  ∃ pre post, content = pre ++ '=' :: (v ++ post) ∧
    (post = [] ∨ ∃ t, post = '\n' :: t)

/-- The content contains a line that is a recognized key alone: its `=`
is immediately followed by the line end (an empty value). -/
def HasEmptyPropLine (keys : List (List Char)) (content : List Char) : Prop :=
  ∃ pre k post, k ∈ keys ∧ content = pre ++ (k ++ post) ∧
    (pre = [] ∨ ∃ pre2, pre = pre2 ++ ['\n']) ∧
    (post = [] ∨ ∃ t, post = '\n' :: t)

/-- A content in which every required key is present with an empty
value. -/
def sampleEmptyVals : List Char :=
  ("ro.product.device=\nro.product.manufacturer=\nro.board.platform=\n" ++
   "ro.product.brand=\nro.product.model=\nro.product.cpu.abi=\n").toList

/-- The record constructed from `sampleEmptyVals`. -/
def sampleEmptyRecord : BuildPropReader :=
  { codename := []
    manufacturer := []
    platform := []
    brand := []
    model := []
    arch := "unknown"
    device_is_ab := false
    device_has_64bit_arch := false }

/-- A literal prefix of a longer literal prefix: if `s` starts with
`p ++ q` then it starts with `p`. -/
theorem startswith_of_startswith_append (p q s : List Char)
    (h : startswith s (p ++ q) = true) : startswith s p = true := by
  induction p generalizing s with
  | nil => cases s <;> rfl
  | cons c cs ih =>
    cases s with
    | nil => simp [startswith] at h
    | cons a as =>
      simp only [List.cons_append, startswith, Bool.and_eq_true] at h ⊢
      exact ⟨h.1, ih as h.2⟩

/-- The branch returning `"x86_64"` in `parse_arch` is unreachable: any
string starting with `"x86_64"` already starts with `"x86"`. -/
theorem parse_arch_ne_x86_64 (s : List Char) : parse_arch s ≠ "x86_64" := by
  unfold parse_arch
  split
  · intro h; exact absurd h (by decide)
  · split
    · intro h; exact absurd h (by decide)
    · split
      · intro h; exact absurd h (by decide)
      · split
        · next h3 h4 =>
          exact absurd (startswith_of_startswith_append "x86".toList "_64".toList s h4) h3
        · split
          · intro h; exact absurd h (by decide)
          · intro h; exact absurd h (by decide)

/-- Inversion of a successful construction: every field of the record is
the capture (or derived value) of the corresponding search of the
source. -/
theorem init_ok_shape (content : List Char) (r : BuildPropReader)
    (h : buildPropReaderInit content = Except.ok r) :
    searchCapture DEVICE_CODENAME_RE content = some r.codename ∧
    (∃ m, searchCapture DEVICE_MANUFACTURER_RE content = some m ∧
      r.manufacturer = m.map Char.toLower) ∧
    searchCapture DEVICE_PLATFORM_RE content = some r.platform ∧
    searchCapture DEVICE_BRAND_RE content = some r.brand ∧
    searchCapture DEVICE_MODEL_RE content = some r.model ∧
    (∃ a, searchCapture DEVICE_ARCH_RE content = some a ∧ r.arch = parse_arch a) ∧
    r.device_is_ab = (searchCapture DEVICE_IS_AB_RE content).isSome ∧
    r.device_has_64bit_arch = (r.arch == "arm64" || r.arch == "x86_64") := by
  cases h1 : searchCapture DEVICE_CODENAME_RE content with
  | none => simp [buildPropReaderInit, get_prop, h1] at h
  | some cn =>
  cases h2 : searchCapture DEVICE_MANUFACTURER_RE content with
  | none => simp [buildPropReaderInit, get_prop, h1, h2] at h
  | some mf =>
  cases h3 : searchCapture DEVICE_PLATFORM_RE content with
  | none => simp [buildPropReaderInit, get_prop, h1, h2, h3] at h
  | some pl =>
  cases h4 : searchCapture DEVICE_BRAND_RE content with
  | none => simp [buildPropReaderInit, get_prop, h1, h2, h3, h4] at h
  | some br =>
  cases h5 : searchCapture DEVICE_MODEL_RE content with
  | none => simp [buildPropReaderInit, get_prop, h1, h2, h3, h4, h5] at h
  | some mo =>
  cases h6 : searchCapture DEVICE_ARCH_RE content with
  | none => simp [buildPropReaderInit, get_prop, h1, h2, h3, h4, h5, h6] at h
  | some ar =>
  simp only [buildPropReaderInit, get_prop, h1, h2, h3, h4, h5, h6] at h
  cases h
  exact ⟨rfl, ⟨mf, rfl, rfl⟩, rfl, rfl, rfl, ⟨ar, rfl, rfl⟩, rfl, rfl⟩

/-- When all six searches succeed, construction succeeds and yields
exactly the record built from the captures. -/
theorem init_ok_of_searches (content : List Char)
    (cn mf pl br mo ar : List Char)
    (h1 : searchCapture DEVICE_CODENAME_RE content = some cn)
    (h2 : searchCapture DEVICE_MANUFACTURER_RE content = some mf)
    (h3 : searchCapture DEVICE_PLATFORM_RE content = some pl)
    (h4 : searchCapture DEVICE_BRAND_RE content = some br)
    (h5 : searchCapture DEVICE_MODEL_RE content = some mo)
    (h6 : searchCapture DEVICE_ARCH_RE content = some ar) :
    buildPropReaderInit content = Except.ok
      { codename := cn
        manufacturer := mf.map Char.toLower
        platform := pl
        brand := br
        model := mo
        arch := parse_arch ar
        device_is_ab := (searchCapture DEVICE_IS_AB_RE content).isSome
        device_has_64bit_arch :=
          parse_arch ar == "arm64" || parse_arch ar == "x86_64" } := by
  simp only [buildPropReaderInit, get_prop, h1, h2, h3, h4, h5, h6]

/-- The values `parse_arch` can return are exactly the five strings
`arm64`, `arm`, `x86`, `mips`, `unknown` (never `x86_64`). -/
theorem parse_arch_mem (s : List Char) :
    parse_arch s ∈ (["arm64", "arm", "x86", "mips", "unknown"] : List String) := by
  unfold parse_arch
  split
  · decide
  · split
    · decide
    · split
      · decide
      · split
        · next h3 h4 =>
          exact absurd (startswith_of_startswith_append "x86".toList "_64".toList s h4) h3
        · split
          · decide
          · decide

/-- C1: `parse_arch` classifies by prefix in the order of the source
(`arm64`, `armeabi`, `x86`, then the unreachable `x86_64`, `mips`), so the
six documented evaluations hold and no input ever yields `"x86_64"`. -/
theorem c1_parse_arch_classification :
    parse_arch "arm64-v8a".toList = "arm64" ∧
    parse_arch "armeabi-v7a".toList = "arm" ∧
    parse_arch "x86".toList = "x86" ∧
    parse_arch "x86_64".toList = "x86" ∧
    parse_arch "mips".toList = "mips" ∧
    parse_arch "riscv64".toList = "unknown" ∧
    ∀ s : List Char, parse_arch s ≠ "x86_64" :=
  ⟨by decide, by decide, by decide, by decide, by decide, by decide,
   parse_arch_ne_x86_64⟩

/-- C2 counterexample: on `sampleMips` construction succeeds with
`arch = "mips"`, a value outside the claimed five-element set. -/
theorem c2_counterexample_arch_mips :
    buildPropReaderInit sampleMips = Except.ok sampleMipsRecord ∧
    sampleMipsRecord.arch = "mips" ∧
    ("mips" : String) ∉ (["arm64", "arm", "x86", "x86_64", "unknown"] : List String) := by
  refine ⟨rfl, rfl, by decide⟩

/-- C2 (amended): the arch field of every successfully constructed record
is one of the five strings `arm64`, `arm`, `x86`, `mips`, `unknown` — in
particular never `x86_64`, but `mips` is reachable. -/
theorem c2_arch_in_closed_set (content : List Char) (r : BuildPropReader)
    (h : buildPropReaderInit content = Except.ok r) :
    r.arch ∈ (["arm64", "arm", "x86", "mips", "unknown"] : List String) := by
  obtain ⟨-, -, -, -, -, ⟨a, -, ha⟩, -, -⟩ := init_ok_shape content r h
  rw [ha]
  exact parse_arch_mem a

/-- C2 witness: the amended theorem applied to `sampleMips`. -/
theorem c2_witness : sampleMipsRecord.arch ∈
    (["arm64", "arm", "x86", "mips", "unknown"] : List String) :=
  c2_arch_in_closed_set sampleMips sampleMipsRecord rfl

/-- C5: in every successfully constructed record,
`device_has_64bit_arch` holds exactly when `arch = "arm64"`; the
membership test of the source against `("arm64", "x86_64")` collapses to
that equality because `parse_arch` never produces `"x86_64"`. -/
theorem c5_has64_iff_arm64 (content : List Char) (r : BuildPropReader)
    (h : buildPropReaderInit content = Except.ok r) :
    r.device_has_64bit_arch = true ↔ r.arch = "arm64" := by
  obtain ⟨-, -, -, -, -, ⟨a, -, ha⟩, -, h64⟩ := init_ok_shape content r h
  rw [h64, ha]
  simp only [Bool.or_eq_true, beq_iff_eq]
  constructor
  · rintro (hb | hb)
    · exact hb
    · exact absurd hb (parse_arch_ne_x86_64 a)
  · intro hb
    exact Or.inl hb

/-- C5 witness: the theorem applied to `sampleArm64`. -/
theorem c5_witness :
    sampleArm64Record.device_has_64bit_arch = true ↔
      sampleArm64Record.arch = "arm64" :=
  c5_has64_iff_arm64 sampleArm64 sampleArm64Record rfl

/-- C9: construction is deterministic in the content: two runs on the
same content that succeed agree field for field, and two runs that fail
carry the same error message. -/
theorem c9_deterministic (content : List Char) :
    (∀ r1 r2 : BuildPropReader, buildPropReaderInit content = Except.ok r1 →
      buildPropReaderInit content = Except.ok r2 →
      r1.codename = r2.codename ∧ r1.manufacturer = r2.manufacturer ∧
      r1.platform = r2.platform ∧ r1.brand = r2.brand ∧
      r1.model = r2.model ∧ r1.arch = r2.arch ∧
      r1.device_is_ab = r2.device_is_ab ∧
      r1.device_has_64bit_arch = r2.device_has_64bit_arch) ∧
    (∀ e1 e2 : String, buildPropReaderInit content = Except.error e1 →
      buildPropReaderInit content = Except.error e2 → e1 = e2) := by
  constructor
  · intro r1 r2 h1 h2
    have h := h1.symm.trans h2
    injection h with h
    subst h
    exact ⟨rfl, rfl, rfl, rfl, rfl, rfl, rfl, rfl⟩
  · intro e1 e2 h1 h2
    have h := h1.symm.trans h2
    injection h with h

/-- C9 witness: the success half applied twice to `sampleMips`. -/
theorem c9_witness :
    sampleMipsRecord.codename = sampleMipsRecord.codename ∧
    sampleMipsRecord.manufacturer = sampleMipsRecord.manufacturer ∧
    sampleMipsRecord.platform = sampleMipsRecord.platform ∧
    sampleMipsRecord.brand = sampleMipsRecord.brand ∧
    sampleMipsRecord.model = sampleMipsRecord.model ∧
    sampleMipsRecord.arch = sampleMipsRecord.arch ∧
    sampleMipsRecord.device_is_ab = sampleMipsRecord.device_is_ab ∧
    sampleMipsRecord.device_has_64bit_arch = sampleMipsRecord.device_has_64bit_arch :=
  (c9_deterministic sampleMips).1 sampleMipsRecord sampleMipsRecord
    rfl rfl

/-- A failed search for any required property makes construction fail. -/
theorem init_error_of_none (content : List Char) (p : PropName)
    (h : searchCapture (requiredKeys p) content = none) :
    ∃ e, buildPropReaderInit content = Except.error e := by
  cases hinit : buildPropReaderInit content with
  | error e => exact ⟨e, rfl⟩
  | ok r =>
    exfalso
    obtain ⟨g1, ⟨m, g2, -⟩, g3, g4, g5, ⟨a, g6, -⟩, -, -⟩ :=
      init_ok_shape content r hinit
    cases p with
    | codename => rw [show requiredKeys PropName.codename = DEVICE_CODENAME_RE from rfl, g1] at h; cases h
    | manufacturer => rw [show requiredKeys PropName.manufacturer = DEVICE_MANUFACTURER_RE from rfl, g2] at h; cases h
    | platform => rw [show requiredKeys PropName.platform = DEVICE_PLATFORM_RE from rfl, g3] at h; cases h
    | brand => rw [show requiredKeys PropName.brand = DEVICE_BRAND_RE from rfl, g4] at h; cases h
    | model => rw [show requiredKeys PropName.model = DEVICE_MODEL_RE from rfl, g5] at h; cases h
    | arch => rw [show requiredKeys PropName.arch = DEVICE_ARCH_RE from rfl, g6] at h; cases h

/-- Construction fails exactly when some required search fails. -/
theorem init_error_iff (content : List Char) :
    (∃ e, buildPropReaderInit content = Except.error e) ↔
      ∃ p : PropName, searchCapture (requiredKeys p) content = none := by
  constructor
  · rintro ⟨e, he⟩
    by_contra hn
    push_neg at hn
    obtain ⟨cn, h1⟩ := Option.ne_none_iff_exists'.mp (hn PropName.codename)
    obtain ⟨mf, h2⟩ := Option.ne_none_iff_exists'.mp (hn PropName.manufacturer)
    obtain ⟨pl, h3⟩ := Option.ne_none_iff_exists'.mp (hn PropName.platform)
    obtain ⟨br, h4⟩ := Option.ne_none_iff_exists'.mp (hn PropName.brand)
    obtain ⟨mo, h5⟩ := Option.ne_none_iff_exists'.mp (hn PropName.model)
    obtain ⟨ar, h6⟩ := Option.ne_none_iff_exists'.mp (hn PropName.arch)
    rw [init_ok_of_searches content cn mf pl br mo ar h1 h2 h3 h4 h5 h6] at he
    cases he
  · rintro ⟨p, hp⟩
    exact init_error_of_none content p hp

/-- When the single property `p` is the missing one, the error message
carries exactly the name of `p`. -/
theorem init_error_named (content : List Char) (p : PropName)
    (hmiss : searchCapture (requiredKeys p) content = none)
    (hothers : ∀ q : PropName, q ≠ p →
      (searchCapture (requiredKeys q) content).isSome = true) :
    buildPropReaderInit content =
      Except.error ("Device " ++ propTitle p ++ " could not be found in build.prop") := by
  cases p with
  | codename =>
    rw [show requiredKeys PropName.codename = DEVICE_CODENAME_RE from rfl] at hmiss
    simp [buildPropReaderInit, get_prop, hmiss, propTitle]
  | manufacturer =>
    obtain ⟨cn, h1⟩ := Option.isSome_iff_exists.mp (hothers PropName.codename (by decide))
    rw [show requiredKeys PropName.codename = DEVICE_CODENAME_RE from rfl] at h1
    rw [show requiredKeys PropName.manufacturer = DEVICE_MANUFACTURER_RE from rfl] at hmiss
    simp [buildPropReaderInit, get_prop, h1, hmiss, propTitle]
  | platform =>
    obtain ⟨cn, h1⟩ := Option.isSome_iff_exists.mp (hothers PropName.codename (by decide))
    obtain ⟨mf, h2⟩ := Option.isSome_iff_exists.mp (hothers PropName.manufacturer (by decide))
    rw [show requiredKeys PropName.codename = DEVICE_CODENAME_RE from rfl] at h1
    rw [show requiredKeys PropName.manufacturer = DEVICE_MANUFACTURER_RE from rfl] at h2
    rw [show requiredKeys PropName.platform = DEVICE_PLATFORM_RE from rfl] at hmiss
    simp [buildPropReaderInit, get_prop, h1, h2, hmiss, propTitle]
  | brand =>
    obtain ⟨cn, h1⟩ := Option.isSome_iff_exists.mp (hothers PropName.codename (by decide))
    obtain ⟨mf, h2⟩ := Option.isSome_iff_exists.mp (hothers PropName.manufacturer (by decide))
    obtain ⟨pl, h3⟩ := Option.isSome_iff_exists.mp (hothers PropName.platform (by decide))
    rw [show requiredKeys PropName.codename = DEVICE_CODENAME_RE from rfl] at h1
    rw [show requiredKeys PropName.manufacturer = DEVICE_MANUFACTURER_RE from rfl] at h2
    rw [show requiredKeys PropName.platform = DEVICE_PLATFORM_RE from rfl] at h3
    rw [show requiredKeys PropName.brand = DEVICE_BRAND_RE from rfl] at hmiss
    simp [buildPropReaderInit, get_prop, h1, h2, h3, hmiss, propTitle]
  | model =>
    obtain ⟨cn, h1⟩ := Option.isSome_iff_exists.mp (hothers PropName.codename (by decide))
    obtain ⟨mf, h2⟩ := Option.isSome_iff_exists.mp (hothers PropName.manufacturer (by decide))
    obtain ⟨pl, h3⟩ := Option.isSome_iff_exists.mp (hothers PropName.platform (by decide))
    obtain ⟨br, h4⟩ := Option.isSome_iff_exists.mp (hothers PropName.brand (by decide))
    rw [show requiredKeys PropName.codename = DEVICE_CODENAME_RE from rfl] at h1
    rw [show requiredKeys PropName.manufacturer = DEVICE_MANUFACTURER_RE from rfl] at h2
    rw [show requiredKeys PropName.platform = DEVICE_PLATFORM_RE from rfl] at h3
    rw [show requiredKeys PropName.brand = DEVICE_BRAND_RE from rfl] at h4
    rw [show requiredKeys PropName.model = DEVICE_MODEL_RE from rfl] at hmiss
    simp [buildPropReaderInit, get_prop, h1, h2, h3, h4, hmiss, propTitle]
  | arch =>
    obtain ⟨cn, h1⟩ := Option.isSome_iff_exists.mp (hothers PropName.codename (by decide))
    obtain ⟨mf, h2⟩ := Option.isSome_iff_exists.mp (hothers PropName.manufacturer (by decide))
    obtain ⟨pl, h3⟩ := Option.isSome_iff_exists.mp (hothers PropName.platform (by decide))
    obtain ⟨br, h4⟩ := Option.isSome_iff_exists.mp (hothers PropName.brand (by decide))
    obtain ⟨mo, h5⟩ := Option.isSome_iff_exists.mp (hothers PropName.model (by decide))
    rw [show requiredKeys PropName.codename = DEVICE_CODENAME_RE from rfl] at h1
    rw [show requiredKeys PropName.manufacturer = DEVICE_MANUFACTURER_RE from rfl] at h2
    rw [show requiredKeys PropName.platform = DEVICE_PLATFORM_RE from rfl] at h3
    rw [show requiredKeys PropName.brand = DEVICE_BRAND_RE from rfl] at h4
    rw [show requiredKeys PropName.model = DEVICE_MODEL_RE from rfl] at h5
    rw [show requiredKeys PropName.arch = DEVICE_ARCH_RE from rfl] at hmiss
    simp [buildPropReaderInit, get_prop, h1, h2, h3, h4, h5, hmiss, propTitle]

/-- C3: when exactly one required property has no matching key pattern,
construction fails with the error message naming exactly that property;
and construction fails at all exactly when some required search fails (a
missing required property is the sole error condition). -/
theorem c3_missing_property_error (content : List Char) :
    (∀ p : PropName, searchCapture (requiredKeys p) content = none →
      (∀ q : PropName, q ≠ p →
        (searchCapture (requiredKeys q) content).isSome = true) →
      buildPropReaderInit content =
        Except.error ("Device " ++ propTitle p ++ " could not be found in build.prop")) ∧
    ((∃ e, buildPropReaderInit content = Except.error e) ↔
      ∃ p : PropName, searchCapture (requiredKeys p) content = none) :=
  ⟨fun p hmiss hothers => init_error_named content p hmiss hothers,
   init_error_iff content⟩

/-- C3 witness: the error on `sampleNoModel` names the model property. -/
theorem c3_witness :
    buildPropReaderInit sampleNoModel =
      Except.error ("Device " ++ propTitle PropName.model ++ " could not be found in build.prop") :=
  (c3_missing_property_error sampleNoModel).1 PropName.model rfl (by
    intro q hq
    cases q with
    | codename => rfl
    | manufacturer => rfl
    | platform => rfl
    | brand => rfl
    | model => exact absurd rfl hq
    | arch => rfl)

/-- A pattern matches the text formed by itself followed by anything,
consuming exactly itself. -/
theorem matchPat_self (p : List Char) : ∀ t, matchPat p (p ++ t) = some t := by
  induction p with
  | nil => intro t; rfl
  | cons c cs ih => intro t; simp [matchPat, ih]

/-- Consumed-prefix decomposition of a successful pattern match. -/
theorem matchPat_decomp (p : List Char) :
    ∀ text r, matchPat p text = some r →
      ∃ pre, text = pre ++ r ∧ matchPat p pre = some [] := by
  induction p with
  | nil =>
    intro text r h
    simp only [matchPat, Option.some.injEq] at h
    exact ⟨[], by simp [h], rfl⟩
  | cons c cs ih =>
    intro text r h
    cases text with
    | nil => simp [matchPat] at h
    | cons a as =>
      simp only [matchPat] at h
      by_cases hc : ((c == '.' && a != '\n') || c == a) = true
      · rw [if_pos hc] at h
        obtain ⟨pre, hpre, hm⟩ := ih as r h
        refine ⟨a :: pre, by simp [hpre], ?_⟩
        simp only [matchPat]
        rw [if_pos hc]
        exact hm
      · rw [if_neg hc] at h
        cases h

/-- Matching a key pattern ending in a literal `=` consumes a text ending
in `=`. -/
theorem matchPat_last_eq (p : List Char) :
    ∀ pre, matchPat (p ++ ['=']) pre = some [] → ∃ pre2, pre = pre2 ++ ['='] := by
  induction p with
  | nil =>
    intro pre h
    cases pre with
    | nil => simp [matchPat] at h
    | cons a as =>
      simp only [List.nil_append, matchPat] at h
      by_cases hc : (('=' == '.' && a != '\n') || '=' == a) = true
      · rw [if_pos hc] at h
        have ha : a = '=' := by
          have : ('=' == '.') = false := by decide
          simp [this] at hc
          exact hc.symm
        simp only [matchPat, Option.some.injEq] at h
        exact ⟨[], by simp [ha, h]⟩
      · rw [if_neg hc] at h
        cases h
  | cons c cs ih =>
    intro pre h
    cases pre with
    | nil => simp [matchPat] at h
    | cons a as =>
      simp only [List.cons_append, matchPat] at h
      by_cases hc : ((c == '.' && a != '\n') || c == a) = true
      · rw [if_pos hc] at h
        obtain ⟨pre2, hp⟩ := ih as h
        exact ⟨a :: pre2, by simp [hp]⟩
      · rw [if_neg hc] at h
        cases h

/-- Alternation decomposition: a successful alternation match comes from
one of the keys and consumes a prefix of the text. -/
theorem matchAlts_decomp (keys : List (List Char)) :
    ∀ text r, matchAlts keys text = some r →
      ∃ k, k ∈ keys ∧ ∃ pre, text = pre ++ r ∧ matchPat k pre = some [] := by
  induction keys with
  | nil => intro text r h; simp [matchAlts] at h
  | cons k ks ih =>
    intro text r h
    cases hm : matchPat k text with
    | some r0 =>
      simp only [matchAlts, hm, Option.some.injEq] at h
      subst h
      obtain ⟨pre, hpre, hp⟩ := matchPat_decomp k text r0 hm
      exact ⟨k, by simp, pre, hpre, hp⟩
    | none =>
      simp only [matchAlts, hm] at h
      obtain ⟨k', hk', rest⟩ := ih text r h
      exact ⟨k', by simp [hk'], rest⟩

/-- Alternation succeeds whenever any of its keys matches. -/
theorem matchAlts_isSome_of_mem (k : List Char) :
    ∀ keys : List (List Char), k ∈ keys → ∀ text,
      (matchPat k text).isSome = true → (matchAlts keys text).isSome = true := by
  intro keys
  induction keys with
  | nil => intro hk; cases hk
  | cons a as ih =>
    intro hk text h
    cases hm : matchPat a text with
    | some r => simp [matchAlts, hm]
    | none =>
      simp only [matchAlts, hm]
      rcases List.mem_cons.mp hk with rfl | hk'
      · rw [hm] at h
        cases h
      · exact ih hk' text h

/-- A position at which the alternation matches makes the whole search
succeed. -/
theorem searchCapture_isSome_of_matchAlts (keys : List (List Char)) :
    ∀ pre rest, (matchAlts keys rest).isSome = true →
      (searchCapture keys (pre ++ rest)).isSome = true := by
  intro pre
  induction pre with
  | nil =>
    intro rest h
    cases rest with
    | nil =>
      simp only [List.nil_append, searchCapture]
      cases hm : matchAlts keys [] with
      | some r => simp
      | none => rw [hm] at h; cases h
    | cons c t =>
      simp only [List.nil_append, searchCapture]
      cases hm : matchAlts keys (c :: t) with
      | some r => simp
      | none => rw [hm] at h; cases h
  | cons c cs ih =>
    intro rest h
    simp only [List.cons_append, searchCapture]
    cases hm : matchAlts keys (c :: (cs ++ rest)) with
    | some r => simp
    | none => exact ih rest h

/-- The search succeeds on any content containing one of the keys. -/
theorem searchCapture_isSome_of_surround (keys : List (List Char)) (k : List Char)
    (hk : k ∈ keys) (pre post : List Char) :
    (searchCapture keys (pre ++ (k ++ post))).isSome = true := by
  have h1 : (matchPat k (k ++ post)).isSome = true := by
    rw [matchPat_self]
    rfl
  exact searchCapture_isSome_of_matchAlts keys pre (k ++ post)
    (matchAlts_isSome_of_mem k keys hk (k ++ post) h1)

/-- Sufficient decidable test for `keysEndEq`. -/
theorem keysEndEq_of_getLast (keys : List (List Char))
    (h : ∀ k ∈ keys, k.getLast? = some '=') : keysEndEq keys := fun k hk =>
  List.getLast?_eq_some_iff.mp (h k hk)

/-- Each of the six required key lists consists of patterns ending in
`=`. -/
theorem keysEndEq_of_field (keys : List (List Char)) (hkeys : keys ∈ allFieldKeys) :
    keysEndEq keys := by
  refine keysEndEq_of_getLast keys ?_
  simp only [allFieldKeys, List.mem_cons, List.not_mem_nil, or_false] at hkeys
  rcases hkeys with rfl | rfl | rfl | rfl | rfl | rfl <;> decide

/-- Shape of a successful search for key patterns ending in `=`: the
capture is newline-free and sits in the content immediately after the `=`
ending the matched key, running to the next newline or the end. -/
theorem searchCapture_shape (keys : List (List Char)) (hend : keysEndEq keys) :
    ∀ content v, searchCapture keys content = some v →
      (∀ c ∈ v, c ≠ '\n') ∧
      ∃ pre post, content = pre ++ '=' :: (v ++ post) ∧
        (post = [] ∨ ∃ t, post = '\n' :: t) := by
  intro content
  induction content with
  | nil =>
    intro v h
    exfalso
    simp only [searchCapture, Option.map_eq_some'] at h
    obtain ⟨r, hr, -⟩ := h
    obtain ⟨k, hk, pre, hpre, hp⟩ := matchAlts_decomp keys [] r hr
    obtain ⟨hpre0, -⟩ := List.append_eq_nil.mp hpre.symm
    subst hpre0
    obtain ⟨k0, hk0⟩ := hend k hk
    subst hk0
    cases k0 with
    | nil => simp [matchPat] at hp
    | cons a as => simp [matchPat] at hp
  | cons c rest ih =>
    intro v h
    cases hm : matchAlts keys (c :: rest) with
    | none =>
      simp only [searchCapture, hm] at h
      obtain ⟨hnl, pre, post, heq, hpost⟩ := ih v h
      exact ⟨hnl, c :: pre, post, by simp [heq], hpost⟩
    | some r =>
      simp only [searchCapture, hm, Option.some.injEq] at h
      subst h
      obtain ⟨k, hk, pre, hpre, hp⟩ := matchAlts_decomp keys (c :: rest) r hm
      obtain ⟨k0, hk0⟩ := hend k hk
      subst hk0
      obtain ⟨pre2, hpre2⟩ := matchPat_last_eq k0 pre hp
      subst hpre2
      constructor
      · intro ch hch
        simp only [captureToEol] at hch
        have := List.mem_takeWhile_imp hch
        simpa using this
      · refine ⟨pre2, r.dropWhile (fun x => x != '\n'), ?_, ?_⟩
        · rw [hpre]
          have hr : captureToEol r ++ r.dropWhile (fun x => x != '\n') = r :=
            List.takeWhile_append_dropWhile _ _
          conv_rhs => rw [hr]
          simp
        · cases hd : r.dropWhile (fun x => x != '\n') with
          | nil => exact Or.inl rfl
          | cons d t =>
            have hh := List.head?_dropWhile_not (fun x => x != '\n') r
            rw [hd] at hh
            simp only [List.head?_cons] at hh
            have hdn : d = '\n' := by simpa using hh
            exact Or.inr ⟨t, by rw [hdn]⟩

/-- The search returns the capture of the leftmost matching position:
no earlier position admits a match of any alternative. -/
theorem searchCapture_leftmost (keys : List (List Char)) :
    ∀ content v, searchCapture keys content = some v →
      ∃ n r, matchAlts keys (content.drop n) = some r ∧ v = captureToEol r ∧
        ∀ m, m < n → matchAlts keys (content.drop m) = none := by
  intro content
  induction content with
  | nil =>
    intro v h
    simp only [searchCapture, Option.map_eq_some'] at h
    obtain ⟨r, hr, hv⟩ := h
    exact ⟨0, r, hr, hv.symm, fun m hm => absurd hm (Nat.not_lt_zero m)⟩
  | cons c rest ih =>
    intro v h
    cases hm : matchAlts keys (c :: rest) with
    | some r =>
      simp only [searchCapture, hm, Option.some.injEq] at h
      exact ⟨0, r, hm, h.symm, fun m hmlt => absurd hmlt (Nat.not_lt_zero m)⟩
    | none =>
      simp only [searchCapture, hm] at h
      obtain ⟨n, r, h1, h2, h3⟩ := ih v h
      refine ⟨n + 1, r, by simpa using h1, h2, ?_⟩
      intro m hmlt
      cases m with
      | zero => simpa using hm
      | succ m' =>
        have := h3 m' (Nat.lt_of_succ_lt_succ hmlt)
        simpa using this

/-- C6 counterexample: on `sampleMidline` no line starts with a codename
key, yet the codename pattern matches mid-line and construction extracts
`evil`. -/
theorem c6_counterexample_midline_match :
    keyAtLineStart DEVICE_CODENAME_RE sampleMidline = false ∧
    buildPropReaderInit sampleMidline = Except.ok sampleMidlineRecord ∧
    sampleMidlineRecord.codename = "evil".toList :=
  ⟨by decide, rfl, rfl⟩

/-- C6 (amended): a field's key patterns may match at any position
within a line (there is no start-of-line anchor, and each `.` of a key
matches any non-newline character); the captured value is exactly the
rest of the line after the `=` of the matched key: it is newline-free and
extends to the next newline or the end of the content. -/
theorem c6_capture_rest_of_line (keys : List (List Char))
    (hkeys : keys ∈ allFieldKeys) (content v : List Char)
    (h : searchCapture keys content = some v) :
    (∀ c ∈ v, c ≠ '\n') ∧
    ∃ pre post, content = pre ++ '=' :: (v ++ post) ∧
      (post = [] ∨ ∃ t, post = '\n' :: t) :=
  searchCapture_shape keys (keysEndEq_of_field keys hkeys) content v h

/-- C6 witness: the amended theorem applied to the codename capture of
`sampleMidline`. -/
theorem c6_witness :
    (∀ c ∈ "evil".toList, c ≠ '\n') ∧
    ∃ pre post, sampleMidline = pre ++ '=' :: ("evil".toList ++ post) ∧
      (post = [] ∨ ∃ t, post = '\n' :: t) :=
  c6_capture_rest_of_line DEVICE_CODENAME_RE (by decide) sampleMidline
    "evil".toList rfl

/-- C8: for each required field, the extracted value comes from the
leftmost matching position of the content: the capture is the rest of the
line at some position `n`, and at every earlier position no alternative
key pattern matches. -/
theorem c8_first_match_wins (keys : List (List Char))
    (_hkeys : keys ∈ allFieldKeys) (content v : List Char)
    (h : searchCapture keys content = some v) :
    ∃ n r, matchAlts keys (content.drop n) = some r ∧ v = captureToEol r ∧
      ∀ m, m < n → matchAlts keys (content.drop m) = none :=
  searchCapture_leftmost keys content v h

/-- C8 witness: with two codename keys present, the earliest line wins
and the theorem gives its leftmost-match certificate. -/
theorem c8_witness :
    searchCapture DEVICE_CODENAME_RE sampleDup = some "one".toList ∧
    ∃ n r, matchAlts DEVICE_CODENAME_RE (sampleDup.drop n) = some r ∧
      "one".toList = captureToEol r ∧
      ∀ m, m < n → matchAlts DEVICE_CODENAME_RE (sampleDup.drop m) = none :=
  ⟨rfl, c8_first_match_wins DEVICE_CODENAME_RE (by decide) sampleDup
    "one".toList rfl⟩

/-- Decomposition of a successful literal prefix test. -/
theorem startswith_decomp (p : List Char) :
    ∀ text, startswith text p = true → ∃ rest, text = p ++ rest := by
  induction p with
  | nil => intro text h; exact ⟨text, rfl⟩
  | cons c cs ih =>
    intro text h
    cases text with
    | nil => simp [startswith] at h
    | cons a as =>
      simp only [startswith, Bool.and_eq_true, beq_iff_eq] at h
      obtain ⟨rfl, h2⟩ := h
      obtain ⟨rest, hr⟩ := ih as h2
      exact ⟨rest, by simp [hr]⟩

/-- Decomposition of a successful literal substring test. -/
theorem containsSub_decomp (sub : List Char) :
    ∀ text, containsSub sub text = true → ∃ pre post, text = pre ++ (sub ++ post) := by
  intro text
  induction text with
  | nil =>
    intro h
    simp only [containsSub] at h
    obtain ⟨rest, hr⟩ := startswith_decomp sub [] h
    exact ⟨[], rest, by simp [hr]⟩
  | cons c rest ih =>
    intro h
    simp only [containsSub, Bool.or_eq_true] at h
    rcases h with h | h
    · obtain ⟨r2, hr⟩ := startswith_decomp sub (c :: rest) h
      exact ⟨[], r2, by simp [hr]⟩
    · obtain ⟨pre, post, hp⟩ := ih h
      exact ⟨c :: pre, post, by simp [hp]⟩

/-- C4 (amended): the literal presence of `ro.build.ab_update=true`
anywhere in the content forces `device_is_ab = true`; in general
`device_is_ab` equals the success of the search for the pattern
`ro.build.ab_update=true` in which each `.` matches any non-newline
character, so the absence of the literal marker does not by itself force
`false`; and the marker never influences whether construction fails —
every failure comes from a missing required property. -/
theorem c4_ab_update_flag (content : List Char) :
    (∀ r : BuildPropReader, buildPropReaderInit content = Except.ok r →
      (containsSub AB_MARKER content = true → r.device_is_ab = true) ∧
      r.device_is_ab = (searchCapture DEVICE_IS_AB_RE content).isSome) ∧
    ((∃ e, buildPropReaderInit content = Except.error e) →
      ∃ p : PropName, searchCapture (requiredKeys p) content = none) := by
  constructor
  · intro r hr
    obtain ⟨-, -, -, -, -, -, hab, -⟩ := init_ok_shape content r hr
    refine ⟨?_, hab⟩
    intro hc
    obtain ⟨pre, post, heq⟩ := containsSub_decomp AB_MARKER content hc
    rw [hab, heq]
    exact searchCapture_isSome_of_surround DEVICE_IS_AB_RE AB_MARKER (by decide) pre post
  · intro he
    exact (init_error_iff content).mp he

/-- C4 counterexample: `sampleAbWild` contains the literal marker
nowhere, yet `device_is_ab` is `true`, because the unescaped dots of the
pattern match the stray characters. -/
theorem c4_counterexample_wildcard_dot :
    containsSub AB_MARKER sampleAbWild = false ∧
    buildPropReaderInit sampleAbWild = Except.ok sampleAbWildRecord ∧
    sampleAbWildRecord.device_is_ab = true :=
  ⟨by decide, rfl, rfl⟩

/-- C4 witness: the amended theorem applied to `sampleAb`, whose record
has `device_is_ab = true`. -/
theorem c4_witness :
    (containsSub AB_MARKER sampleAb = true → sampleAbRecord.device_is_ab = true) ∧
    sampleAbRecord.device_is_ab = (searchCapture DEVICE_IS_AB_RE sampleAb).isSome :=
  (c4_ab_update_flag sampleAb).1 sampleAbRecord rfl

/-- A key occurrence in the content makes the corresponding search
succeed. -/
theorem searchCapture_isSome_of_propLine (keys : List (List Char))
    (content : List Char) (h : HasPropLine keys content) :
    (searchCapture keys content).isSome = true := by
  obtain ⟨pre, k, v, post, hk, heq, -, -, -⟩ := h
  rw [heq]
  exact searchCapture_isSome_of_surround keys k hk pre (v ++ post)

/-- C7: on a well-formed content carrying a line for every required
property, construction succeeds, and every field is exactly a substring
of the content that follows an `=` and runs to the end of its line — the
manufacturer after lowercasing its captured substring, the arch after
normalizing its captured substring with `parse_arch`. -/
theorem c7_wellformed_extraction (content : List Char)
    (h1 : HasPropLine DEVICE_CODENAME_RE content)
    (h2 : HasPropLine DEVICE_MANUFACTURER_RE content)
    (h3 : HasPropLine DEVICE_PLATFORM_RE content)
    (h4 : HasPropLine DEVICE_BRAND_RE content)
    (h5 : HasPropLine DEVICE_MODEL_RE content)
    (h6 : HasPropLine DEVICE_ARCH_RE content) :
    ∃ r : BuildPropReader, buildPropReaderInit content = Except.ok r ∧
      LineCapture content r.codename ∧
      (∃ w, LineCapture content w ∧ r.manufacturer = w.map Char.toLower) ∧
      LineCapture content r.platform ∧
      LineCapture content r.brand ∧
      LineCapture content r.model ∧
      (∃ w, LineCapture content w ∧ r.arch = parse_arch w) := by
  obtain ⟨cn, g1⟩ := Option.isSome_iff_exists.mp
    (searchCapture_isSome_of_propLine _ _ h1)
  obtain ⟨mf, g2⟩ := Option.isSome_iff_exists.mp
    (searchCapture_isSome_of_propLine _ _ h2)
  obtain ⟨pl, g3⟩ := Option.isSome_iff_exists.mp
    (searchCapture_isSome_of_propLine _ _ h3)
  obtain ⟨br, g4⟩ := Option.isSome_iff_exists.mp
    (searchCapture_isSome_of_propLine _ _ h4)
  obtain ⟨mo, g5⟩ := Option.isSome_iff_exists.mp
    (searchCapture_isSome_of_propLine _ _ h5)
  obtain ⟨ar, g6⟩ := Option.isSome_iff_exists.mp
    (searchCapture_isSome_of_propLine _ _ h6)
  refine ⟨_, init_ok_of_searches content cn mf pl br mo ar g1 g2 g3 g4 g5 g6,
    ?_, ⟨mf, ?_, rfl⟩, ?_, ?_, ?_, ⟨ar, ?_, rfl⟩⟩
  · exact searchCapture_shape _ (keysEndEq_of_field _ (by decide)) content cn g1
  · exact searchCapture_shape _ (keysEndEq_of_field _ (by decide)) content mf g2
  · exact searchCapture_shape _ (keysEndEq_of_field _ (by decide)) content pl g3
  · exact searchCapture_shape _ (keysEndEq_of_field _ (by decide)) content br g4
  · exact searchCapture_shape _ (keysEndEq_of_field _ (by decide)) content mo g5
  · exact searchCapture_shape _ (keysEndEq_of_field _ (by decide)) content ar g6

/-- C7 witness: the theorem applied to `sampleArm64`, whose six property
lines are given explicitly. -/
theorem c7_witness :
    ∃ r : BuildPropReader, buildPropReaderInit sampleArm64 = Except.ok r ∧
      LineCapture sampleArm64 r.codename ∧
      (∃ w, LineCapture sampleArm64 w ∧ r.manufacturer = w.map Char.toLower) ∧
      LineCapture sampleArm64 r.platform ∧
      LineCapture sampleArm64 r.brand ∧
      LineCapture sampleArm64 r.model ∧
      (∃ w, LineCapture sampleArm64 w ∧ r.arch = parse_arch w) :=
  c7_wellformed_extraction sampleArm64
    ⟨[], "ro.product.device=".toList, "a".toList,
      ("\nro.product.manufacturer=B\nro.board.platform=c\nro.product.brand=d\nro.product.model=e\nro.product.cpu.abi=arm64-v8a\n").toList,
      by decide, by decide, Or.inl rfl, by decide,
      Or.inr ⟨("ro.product.manufacturer=B\nro.board.platform=c\nro.product.brand=d\nro.product.model=e\nro.product.cpu.abi=arm64-v8a\n").toList, by decide⟩⟩
    ⟨("ro.product.device=a\n").toList, "ro.product.manufacturer=".toList, "B".toList,
      ("\nro.board.platform=c\nro.product.brand=d\nro.product.model=e\nro.product.cpu.abi=arm64-v8a\n").toList,
      by decide, by decide, Or.inr ⟨("ro.product.device=a").toList, by decide⟩, by decide,
      Or.inr ⟨("ro.board.platform=c\nro.product.brand=d\nro.product.model=e\nro.product.cpu.abi=arm64-v8a\n").toList, by decide⟩⟩
    ⟨("ro.product.device=a\nro.product.manufacturer=B\n").toList, "ro.board.platform=".toList, "c".toList,
      ("\nro.product.brand=d\nro.product.model=e\nro.product.cpu.abi=arm64-v8a\n").toList,
      by decide, by decide, Or.inr ⟨("ro.product.device=a\nro.product.manufacturer=B").toList, by decide⟩, by decide,
      Or.inr ⟨("ro.product.brand=d\nro.product.model=e\nro.product.cpu.abi=arm64-v8a\n").toList, by decide⟩⟩
    ⟨("ro.product.device=a\nro.product.manufacturer=B\nro.board.platform=c\n").toList, "ro.product.brand=".toList, "d".toList,
      ("\nro.product.model=e\nro.product.cpu.abi=arm64-v8a\n").toList,
      by decide, by decide, Or.inr ⟨("ro.product.device=a\nro.product.manufacturer=B\nro.board.platform=c").toList, by decide⟩, by decide,
      Or.inr ⟨("ro.product.model=e\nro.product.cpu.abi=arm64-v8a\n").toList, by decide⟩⟩
    ⟨("ro.product.device=a\nro.product.manufacturer=B\nro.board.platform=c\nro.product.brand=d\n").toList, "ro.product.model=".toList, "e".toList,
      ("\nro.product.cpu.abi=arm64-v8a\n").toList,
      by decide, by decide, Or.inr ⟨("ro.product.device=a\nro.product.manufacturer=B\nro.board.platform=c\nro.product.brand=d").toList, by decide⟩, by decide,
      Or.inr ⟨("ro.product.cpu.abi=arm64-v8a\n").toList, by decide⟩⟩
    ⟨("ro.product.device=a\nro.product.manufacturer=B\nro.board.platform=c\nro.product.brand=d\nro.product.model=e\n").toList, "ro.product.cpu.abi=".toList, "arm64-v8a".toList,
      ("\n").toList,
      by decide, by decide, Or.inr ⟨("ro.product.device=a\nro.product.manufacturer=B\nro.board.platform=c\nro.product.brand=d\nro.product.model=e").toList, by decide⟩, by decide,
      Or.inr ⟨[], by decide⟩⟩

/-- C10: a required key present with an empty value satisfies the
presence requirement — the search succeeds, so construction does not fail
for that property; the empty raw arch value is normalized by `parse_arch`
to `unknown`; and on a content where every required value is empty,
construction succeeds with every string field empty, `arch = "unknown"`
and `device_has_64bit_arch = false`. -/
theorem c10_empty_value :
    (∀ keys content, keys ∈ allFieldKeys → HasEmptyPropLine keys content →
      (searchCapture keys content).isSome = true) ∧
    parse_arch [] = "unknown" ∧
    buildPropReaderInit sampleEmptyVals = Except.ok sampleEmptyRecord := by
  refine ⟨?_, rfl, rfl⟩
  intro keys content _hkeys h
  obtain ⟨pre, k, post, hk, heq, -, -⟩ := h
  rw [heq]
  exact searchCapture_isSome_of_surround keys k hk pre post

/-- C10 witness: the presence part applied to the codename key of
`sampleEmptyVals`. -/
theorem c10_witness :
    (searchCapture DEVICE_CODENAME_RE sampleEmptyVals).isSome = true :=
  c10_empty_value.1 DEVICE_CODENAME_RE sampleEmptyVals (by decide)
    ⟨[], "ro.product.device=".toList,
      ("\nro.product.manufacturer=\nro.board.platform=\nro.product.brand=\nro.product.model=\nro.product.cpu.abi=\n").toList,
      by decide, by decide, Or.inl rfl,
      Or.inr ⟨("ro.product.manufacturer=\nro.board.platform=\nro.product.brand=\nro.product.model=\nro.product.cpu.abi=\n").toList, by decide⟩⟩
